import Mathlib

/-!
Verification development for the clawdbot-bridge gateway client, response
decoder and session store.  The definitions below are shallow embeddings of
`src/gateway/response_parser.py`, `src/gateway/client.py` and
`src/session/manager.py`.

Modelling conventions:
* JSON documents are represented by the inductive `JVal`; Python `dict` values
  become association lists (unique keys, first binding wins on lookup).
* Byte chunks of the streaming body are modelled as the text they decode to
  (`List Char`); the source decodes each chunk with `errors="ignore"` before
  any framing, so framing operates on text in both the source and the model.
* `json.loads` is an external library call; it is abstracted as a parameter
  `parse : String → Option JVal` (returning `none` for a `JSONDecodeError`).
* Fields that the source feeds to string operations (`+=`, `len`, `join`) are
  modelled as strings; a payload placing a non-string where the source would
  then raise `TypeError` is outside the model (the source surfaces such an
  exception through the generic handler in `send_message`).
-/

/-- Generic JSON value, the input type of the response decoder. -/
inductive JVal where
  | str : String → JVal
  | num : Int → JVal
  | bool : Bool → JVal
  | null : JVal
  | arr : List JVal → JVal
  | obj : List (String × JVal) → JVal

/-- Python `d.get(k)` on a dict: first binding for the key, if any.
On a non-dict the source would raise `AttributeError` (outside the model). -/
def jLookup (j : JVal) (key : String) : Option JVal :=
  match j with
  | .obj kvs => (kvs.find? (fun p => p.1 == key)).map (fun p => p.2)
  | _ => none

/-- Python truthiness of a JSON value. -/
def jTruthy (j : JVal) : Bool :=
  match j with
  | .str s => s ≠ ""
  | .num n => n ≠ 0
  | .bool b => b
  | .null => false
  | .arr l => !l.isEmpty
  | .obj kvs => !kvs.isEmpty

/-- Whether a JSON value is the given string (Python `j == s`). -/
def jIsStr (j : JVal) (s : String) : Bool :=
  match j with
  | .str t => t == s
  | _ => false

/-- Python `d.get(k, default)` where the source then uses the value as a
string; a non-string value is outside the model (see header). -/
def getStrD (j : JVal) (key : String) (dflt : String) : String :=
  match jLookup j key with
  | some (.str s) => s
  | _ => dflt

/-- Python `"\n".join(texts)`. -/
def joinTexts : List String → String
  | [] => ""
  | [t] => t
  | t :: ts => t ++ "\n" ++ joinTexts ts

/-- `ResponseParser._extract_text_from_content` (response_parser.py 71-96).
A string content is returned verbatim; a list collects plain strings
(unconditionally) and the `text` field of dict elements (when truthy). -/
def extract_text_from_content (content : JVal) : Option String :=
  match content with
  | .str s => some s
  | .arr items =>
    let texts := items.filterMap (fun ci =>
      match ci with
      | .str s => some s
      | .obj _ =>
        if jIsStr ((jLookup ci "type").getD .null) "output_text" then
          match jLookup ci "text" with
          | some (.str t) => if t ≠ "" then some t else none
          | _ => none
        else
          match jLookup ci "text" with
          | some (.str t) => if t ≠ "" then some t else none
          | _ => none
      | _ => none)
    if texts = [] then none else some (joinTexts texts)
  | _ => none

/-- The `for key in ["text", "content", "message"]` probe loop of
`ResponseParser._extract_text_from_item` (response_parser.py 58-67): a present
key whose value is a truthy string, or a list whose content-extraction is
truthy, wins; any other present value falls through to the next key. -/
def probeKeys (item : JVal) : List String → Option String
  | [] => none
  | k :: ks =>
    match jLookup item k with
    | some (.str s) => if s ≠ "" then some s else probeKeys item ks
    | some (.arr l) =>
      match extract_text_from_content (.arr l) with
      | some t => if t ≠ "" then some t else probeKeys item ks
      | _ => probeKeys item ks
    | _ => probeKeys item ks

/-- `ResponseParser._extract_text_from_item` (response_parser.py 39-69).
In format 1 the source returns `item["content"]` verbatim; a non-string
content there is outside the model (truthy non-strings make the caller's
join raise, falsy ones are dropped by the caller's truthiness filter). -/
def extract_text_from_item (item : JVal) : Option String :=
  match item with
  | .str s => some s
  | .obj _ =>
    let item_type := (jLookup item "type").getD (.str "")
    match jLookup item "content" with
    | some c =>
      if jIsStr item_type "text" then
        match c with
        | .str s => some s
        | _ => none
      else if jIsStr item_type "message" then
        extract_text_from_content c
      else
        probeKeys item ["text", "content", "message"]
    | none => probeKeys item ["text", "content", "message"]
  | _ => none

/-- `ResponseParser.extract_text_from_output` (response_parser.py 13-37):
per-item extraction, truthiness filter, newline join, `none` when nothing
survives (or when the argument is not a non-empty list). -/
def extract_text_from_output (output : JVal) : Option String :=
  match output with
  | .arr items =>
    if items.isEmpty then none
    else
      let texts := items.filterMap (fun item =>
        match extract_text_from_item item with
        | some t => if t ≠ "" then some t else none
        | none => none)
      if texts = [] then none else some (joinTexts texts)
  | _ => none

/-- Decoded SSE event, the dict built by `ResponseParser.parse_sse_event`
(response_parser.py 98-138). `status` is only set by the completed branch. -/
structure SSEEventResult where
  type : JVal
  text : Option String
  is_done : Bool
  is_error : Bool
  error_message : Option String
  status : Option String

/-- `ResponseParser.parse_sse_event` (response_parser.py 98-138). -/
def parse_sse_event (data : JVal) : SSEEventResult :=
  let event_type := (jLookup data "type").getD (.str "")
  let base : SSEEventResult :=
    { type := event_type, text := none, is_done := false, is_error := false,
      error_message := none, status := none }
  if jIsStr event_type "response.output_text.delta" then
    { base with text := some (getStrD data "delta" "") }
  else if jIsStr event_type "response.output_text.done" then
    { base with text := some (getStrD data "text" ""), is_done := true }
  else if jIsStr event_type "response.completed" then
    let response_obj := (jLookup data "response").getD (.obj [])
    if jTruthy response_obj then
      { base with is_done := true, text := extract_text_from_output ((jLookup response_obj "output").getD (.arr [])), status := some (getStrD response_obj "status" "") }
    else
      { base with is_done := true }
  else if jIsStr event_type "response.failed" then
    { base with is_error := true, is_done := true, error_message := some (getStrD ((jLookup ((jLookup data "response").getD (.obj [])) "error").getD (.obj [])) "message" "Unknown error") }
  else
    base

/-- The first block of `ResponseParser.parse_json_response`
(response_parser.py 150-154): `output` present and a list, extraction truthy. -/
def pjr_output_branch (result : JVal) : Option JVal :=
  match jLookup result "output" with
  | some (.arr out) =>
    match extract_text_from_output (.arr out) with
    | some t => if t ≠ "" then some (.str t) else none
    | none => none
  | _ => none

/-- `choices[0].get("message", \x7b\x7d).get("content", "")`
(response_parser.py 158). -/
def choiceContent (c0 : JVal) : JVal :=
  (jLookup ((jLookup c0 "message").getD (.obj [])) "content").getD (.str "")

/-- The second block of `ResponseParser.parse_json_response`
(response_parser.py 156-160): non-empty `choices` list with truthy content.
The branch is modelled for a list value of `choices`; for other truthy
values the source raises before returning (outside the model). -/
def pjr_choices_branch (result : JVal) : Option JVal :=
  match jLookup result "choices" with
  | some (.arr (c0 :: _)) =>
    if jTruthy (choiceContent c0) then some (choiceContent c0) else none
  | _ => none

/-- `ResponseParser.parse_json_response` (response_parser.py 140-166): the
two guarded blocks in order (an early `return` is a `some`), then the
`content` field verbatim (so the result can be any JSON value). -/
def parse_json_response (result : JVal) : Option JVal :=
  match pjr_output_branch result with
  | some v => some v
  | none =>
    match pjr_choices_branch result with
    | some v => some v
    | none => jLookup result "content"

/-- Python `str.strip()` on a decoded line (whitespace at both ends). -/
def stripChars (l : List Char) : List Char :=
  ((l.dropWhile Char.isWhitespace).reverse.dropWhile Char.isWhitespace).reverse

/-- Python `str.strip()` at the `String` level (used on the outbound message). -/
def pyStrip (s : String) : String :=
  String.mk (stripChars s.data)

/-- The stream-end sentinel line, client.py 195. -/
def doneSentinel : List Char := "data: [DONE]".data

/-- The local accumulators of `OpenClawClient._handle_sse_response`
(client.py 176-179); the text buffer is carried separately. -/
structure AggState where
  accumulated_text : String
  final_response_text : String
  event_count : Nat

/-- Initial accumulator state (client.py 176-179). -/
def initAgg : AggState :=
  { accumulated_text := "", final_response_text := "", event_count := 0 }

/-- The event dispatch on one decoded SSE event (client.py 212-219):
`if result["text"]:` then branch on the event type. -/
def applyEvent (st : AggState) (r : SSEEventResult) : AggState :=
  match r.text with
  | some t =>
    if t ≠ "" then
      if jIsStr r.type "response.output_text.delta" then
        { st with accumulated_text := st.accumulated_text ++ t }
      else if jIsStr r.type "response.completed" then
        { st with final_response_text := t }
      else if jIsStr r.type "response.output_text.done" then
        if t.length ≥ st.accumulated_text.length then { st with accumulated_text := t } else st
      else st
    else st
  | none => st

/-- Control state of the streaming loop: either still reading (accumulators
plus the unconsumed tail of the buffer) or the function has returned. -/
inductive StreamStep where
  | flowing : AggState → List Char → StreamStep
  | returned : String → StreamStep

/-- Splits a buffer at every newline: the complete lines (text before each
newline, in order) and the trailing remainder after the last newline.  This
is the decomposition the source's `while "\n" in buffer` loop consumes. -/
def splitCL : List Char → List (List Char) × List Char
  | [] => ([], [])
  | c :: cs =>
    let (ss, rem) := splitCL cs
    if c = '\n' then ([] :: ss, rem)
    else
      match ss with
      | [] => ([], c :: rem)
      | s :: ss2 => ((c :: s) :: ss2, rem)

/-- Rebuilds a buffer from complete lines and a remainder (inverse of
`splitCL`); the leftover buffer after a `break` is expressed with it. -/
def joinNL : List (List Char) → List Char → List Char
  | [], rem => rem
  | s :: ss, rem => s ++ '\n' :: joinNL ss rem

/-- The `while "\n" in buffer` body of `OpenClawClient._handle_sse_response`
(client.py 188-223), consuming the complete lines of the current buffer in
order.  A `data: [DONE]` line executes `break`: it stops consuming this
buffer but only leaves the inner loop, so the unconsumed tail stays buffered.
A `response.failed` event executes `return`, ending the whole call. -/
def processSegs (parse : String → Option JVal) : AggState → List (List Char) → List Char → StreamStep
  | st, [], rem => .flowing st rem
  | st, lraw :: ls, rem =>
    let line := stripChars lraw
    if line.isEmpty || ("event:".data).isPrefixOf line then processSegs parse st ls rem
    else if line = doneSentinel then .flowing st (joinNL ls rem)
    else if ("data: ".data).isPrefixOf line then
      match parse (String.mk (line.drop 6)) with
      | none => processSegs parse st ls rem
      | some data =>
        let r := parse_sse_event data
        let st1 := { st with event_count := st.event_count + 1 }
        if r.is_error then .returned ("❌ OpenClaw 错误: " ++ r.error_message.getD "None")
        else processSegs parse (applyEvent st1 r) ls rem
    else processSegs parse st ls rem

/-- One iteration of `async for chunk in response.content.iter_any()`
(client.py 181-223): skip empty chunks, append the decoded chunk to the
buffer, consume the buffer's complete lines. -/
def processChunk (parse : String → Option JVal) (step : StreamStep) (chunk : List Char) : StreamStep :=
  match step with
  | .returned m => .returned m
  | .flowing st buf =>
    if chunk.isEmpty then .flowing st buf
    else
      let buffer := buf ++ chunk
      processSegs parse st (splitCL buffer).1 (splitCL buffer).2

/-- Final text selection at stream end (client.py 229-237). -/
def sseFinish (st : AggState) : String :=
  let result_text := if st.final_response_text ≠ "" then st.final_response_text else st.accumulated_text
  if result_text ≠ "" then result_text else "✅ 命令已执行完成（无文本输出）"

/-- `OpenClawClient._handle_sse_response` (client.py 170-237) on the sequence
of decoded body chunks, with `json.loads` abstracted as `parse`. -/
def handle_sse_response (parse : String → Option JVal) (chunks : List (List Char)) : String :=
  match chunks.foldl (processChunk parse) (.flowing initAgg []) with
  | .returned m => m
  | .flowing st _ => sseFinish st

/-- Result of folding decoded events: still aggregating, or returned early. -/
inductive EvOut where
  | flowing : AggState → EvOut
  | returned : String → EvOut

/-- The per-event core of `_handle_sse_response` (client.py 202-219) over a
list of already-framed event payloads: count the event, return on
`response.failed`, otherwise dispatch through `applyEvent`. -/
def runEvents : AggState → List JVal → EvOut
  | st, [] => .flowing st
  | st, e :: es =>
    let r := parse_sse_event e
    let st1 := { st with event_count := st.event_count + 1 }
    if r.is_error then .returned ("❌ OpenClaw 错误: " ++ r.error_message.getD "None")
    else runEvents (applyEvent st1 r) es

/-- Stream aggregation of a framed event sequence: `runEvents` from the
initial state followed by the final text selection (client.py 229-237). -/
def aggregateEvents (events : List JVal) : String :=
  match runEvents initAgg events with
  | .returned m => m
  | .flowing st => sseFinish st

/-- Proof helper: the effect of one complete line on the aggregation state,
with a sentinel line treated as an ordinary skip (callers only use it on
sentinel-free lines). -/
def foldStep (parse : String → Option JVal) (st : AggState) (lraw : List Char) : EvOut :=
  let line := stripChars lraw
  if line.isEmpty || ("event:".data).isPrefixOf line then .flowing st
  else if line = doneSentinel then .flowing st
  else if ("data: ".data).isPrefixOf line then
    match parse (String.mk (line.drop 6)) with
    | none => .flowing st
    | some data =>
      let r := parse_sse_event data
      let st1 := { st with event_count := st.event_count + 1 }
      if r.is_error then .returned ("❌ OpenClaw 错误: " ++ r.error_message.getD "None")
      else .flowing (applyEvent st1 r)
  else .flowing st

/-- Proof helper: the same line consumption as `processSegs` but ignoring the
remainder and treating a sentinel line as an ordinary skip.  It agrees with
`processSegs` on sentinel-free line lists and composes over append. -/
def foldSegs (parse : String → Option JVal) : AggState → List (List Char) → EvOut
  | st, [] => .flowing st
  | st, lraw :: ls =>
    match foldStep parse st lraw with
    | .flowing st2 => foldSegs parse st2 ls
    | .returned m => .returned m

/-- Construction parameters of `OpenClawClient` (client.py 22-41); the URL is
stored with trailing slashes already removed. -/
structure ClientCfg where
  gateway_url : String
  agent_id : String
  auth_token : String
  timeout : Nat

/-- `OpenClawClient._build_headers` (client.py 43-52). -/
def build_headers (c : ClientCfg) (session_key : String) : List (String × String) :=
  let headers := [("Content-Type", "application/json"),
                  ("x-openclaw-agent-id", c.agent_id),
                  ("x-openclaw-session-key", session_key)]
  if c.auth_token ≠ "" then headers ++ [("Authorization", "Bearer " ++ c.auth_token)] else headers

/-- `OpenClawClient._build_payload` (client.py 54-63). -/
def build_payload (c : ClientCfg) (message : String) (session_key : String) (stream : Bool) : JVal :=
  .obj [("model", .str ("openclaw:" ++ c.agent_id)),
        ("input", .str message),
        ("user", .str session_key),
        ("stream", .bool stream)]

/-- `OpenClawClient.send_message` (client.py 65-109) with the whole network
interaction (HTTP POST, response handling and error conversion) abstracted as
`transport`.  The boolean records whether the transport was invoked; logging
is not modelled.  The source checks `not message or not message.strip()`. -/
def send_message (transport : String → List (String × String) → JVal → Option String)
    (c : ClientCfg) (message : String) (session_key : String) : Option String × Bool :=
  if message = "" ∨ pyStrip message = "" then
    (some "❌ 消息不能为空", false)
  else
    let url := c.gateway_url ++ "/v1/responses"
    (transport url (build_headers c session_key) (build_payload c message session_key true), true)

/-- `Session` (manager.py 15-21). -/
structure Session where
  mode : String
  session_key : String
  session_name : String

/-- The mode constant `SessionManager.MODE_CLAWDBOT` (manager.py 32). -/
def MODE_CLAWDBOT : String := "clawdbot"

/-- `SessionManager` (manager.py 24-36): the in-memory session dict. -/
structure SessionManager where
  _sessions : List (String × Session)

/-- Dict lookup `self._sessions.get(session_id)`. -/
def dictGet (l : List (String × Session)) (k : String) : Option Session :=
  (l.find? (fun p => p.1 == k)).map (fun p => p.2)

/-- Dict assignment `self._sessions[session_id] = v`: replace the binding in
place when the key exists, append otherwise (Python dict semantics). -/
def dictSet (l : List (String × Session)) (k : String) (v : Session) : List (String × Session) :=
  if l.any (fun p => p.1 == k) then l.map (fun p => if p.1 == k then (k, v) else p)
  else l ++ [(k, v)]

/-- `SessionManager.is_in_clawdbot_mode` (manager.py 88-91). -/
def is_in_clawdbot_mode (m : SessionManager) (session_id : String) : Bool :=
  match dictGet m._sessions session_id with
  | some s => s.mode == MODE_CLAWDBOT
  | none => false

/-- `SessionManager.enter_clawdbot_mode` (manager.py 93-108). -/
def enter_clawdbot_mode (m : SessionManager) (session_id : String) (session_key : String) (session_name : String) : SessionManager :=
  { _sessions := dictSet m._sessions session_id
      { mode := MODE_CLAWDBOT, session_key := session_key, session_name := session_name } }

/-- `SessionManager.get_session_key` (manager.py 122-125). -/
def get_session_key (m : SessionManager) (session_id : String) : Option String :=
  (dictGet m._sessions session_id).map (fun s => s.session_key)

/-- `SessionManager.get_session_name` (manager.py 127-130). -/
def get_session_name (m : SessionManager) (session_id : String) : Option String :=
  (dictGet m._sessions session_id).map (fun s => s.session_name)

/-! Concrete fixtures used by the claim theorems. -/

/-- JSON text of a delta event carrying the text "X". -/
def deltaJson : String := "\x7b\"type\": \"response.output_text.delta\", \"delta\": \"X\"\x7d"

/-- The JSON value `json.loads` produces for `deltaJson`. -/
def deltaXEv : JVal := .obj [("type", .str "response.output_text.delta"), ("delta", .str "X")]

/-- A concrete restriction of `json.loads`: decodes `deltaJson`, rejects
everything else.  It agrees with `json.loads` on every line the fixture
streams feed to it. -/
def parse1 : String → Option JVal := fun s => if s = deltaJson then some deltaXEv else none

/-- A chunk holding exactly the `data: [DONE]` sentinel line. -/
def chunkDone : List Char := "data: [DONE]\n".data

/-- A chunk holding one complete delta line. -/
def chunkDeltaX : List Char := ("data: " ++ deltaJson ++ "\n").data

/-- First half of the delta line, cut in the middle of its JSON payload. -/
def splitA : List Char := "data: \x7b\"type\": \"response.out".data

/-- Second half of the delta line, completing the JSON and the newline. -/
def splitB : List Char := "put_text.delta\", \"delta\": \"X\"\x7d\n".data

/-- A delta event payload. -/
def deltaEv (s : String) : JVal :=
  .obj [("type", .str "response.output_text.delta"), ("delta", .str s)]

/-- A done event payload. -/
def doneEv (s : String) : JVal :=
  .obj [("type", .str "response.output_text.done"), ("text", .str s)]

/-- A completed event payload whose output carries the given text. -/
def completedEv (s : String) : JVal :=
  .obj [("type", .str "response.completed"),
        ("response", .obj [("status", .str "completed"), ("output", .arr [.str s])])]

/-- A failed event payload carrying an error message. -/
def failedEv (s : String) : JVal :=
  .obj [("type", .str "response.failed"),
        ("response", .obj [("error", .obj [("message", .str s)])])]

/-- A failed event payload whose error object has no message. -/
def failedEvNoMsg : JVal :=
  .obj [("type", .str "response.failed"), ("response", .obj [("error", .obj [])])]

/-! General lemmas. -/

theorem jIsStr_iff (j : JVal) (s : String) : jIsStr j s = true ↔ j = JVal.str s := by
  cases j <;> simp [jIsStr]

theorem joinTexts_ne_empty (ts : List String) (hne : ts ≠ []) (h : ∀ t ∈ ts, t ≠ "") :
    joinTexts ts ≠ "" := by
  match ts with
  | [] => exact absurd rfl hne
  | [t] => simpa [joinTexts] using h t (by simp)
  | t :: t2 :: rest =>
    intro hcontr
    have hstep : joinTexts (t :: t2 :: rest) = t ++ "\n" ++ joinTexts (t2 :: rest) := rfl
    rw [hstep] at hcontr
    have hlen := congrArg String.length hcontr
    rw [String.length_append, String.length_append] at hlen
    have h1 : ("\n" : String).length = 1 := rfl
    have h0 : ("" : String).length = 0 := rfl
    omega


/-! Claim C1. -/

/-- Claim C1: the spec requires the `data: [DONE]` sentinel to stop
aggregation entirely, but the source's `break` (client.py 197) only leaves
the inner line loop.  Evaluating the code: a delta line that follows the
sentinel — arriving in a later chunk, or already buffered once any later
non-empty chunk arrives — is decoded and becomes the returned text, while
the same bytes ending at the sentinel return the fixed no-text message. -/
theorem c1_sentinel_only_breaks_inner_loop :
    handle_sse_response parse1 [chunkDone, chunkDeltaX] = "X" ∧
    handle_sse_response parse1 [chunkDone ++ chunkDeltaX, "\n".data] = "X" ∧
    handle_sse_response parse1 [chunkDone ++ chunkDeltaX] = "✅ 命令已执行完成（无文本输出）" := by
  refine ⟨?_, ?_, ?_⟩ <;> rfl

/-! Claim C10. -/

/-- Claim C10 (amended): `extract_text_from_output` never returns the empty
string — items whose extracted text is empty are dropped before the newline
join — but the helper `extract_text_from_content` does not share the
guarantee (see the counterexample). -/
theorem c10_output_text_never_empty (j : JVal) (s : String)
    (h : extract_text_from_output j = some s) : s ≠ "" := by
  match j with
  | .str _ => exact absurd h (by simp [extract_text_from_output])
  | .num _ => exact absurd h (by simp [extract_text_from_output])
  | .bool _ => exact absurd h (by simp [extract_text_from_output])
  | .null => exact absurd h (by simp [extract_text_from_output])
  | .obj _ => exact absurd h (by simp [extract_text_from_output])
  | .arr items =>
    simp only [extract_text_from_output] at h
    split at h
    · exact absurd h (by simp)
    · split at h
      · exact absurd h (by simp)
      · next hne =>
        injection h with hs
        subst hs
        refine joinTexts_ne_empty _ hne ?_
        intro t ht
        obtain ⟨a, -, hfa⟩ := List.mem_filterMap.mp ht
        cases hx : extract_text_from_item a with
        | none => rw [hx] at hfa; exact absurd hfa (by simp)
        | some u =>
          rw [hx] at hfa
          by_cases hu : u = ""
          · rw [hu] at hfa; simp at hfa
          · simp only [ne_eq, hu, not_false_iff, if_true] at hfa
            injection hfa with hf
            subst hf
            exact hu

/-- Claim C10, counterexample: the helper `_extract_text_from_content`
returns a string content verbatim, so on the empty string it returns the
empty string, contradicting the claim that it never does. -/
theorem c10_counterexample : extract_text_from_content (JVal.str "") = some "" := rfl

/-- Claim C10, witness. -/
theorem c10_witness :
    extract_text_from_output (JVal.arr [JVal.str "hello"]) = some "hello" ∧ "hello" ≠ "" :=
  ⟨rfl, c10_output_text_never_empty (JVal.arr [JVal.str "hello"]) "hello" rfl⟩

/-! Claim C7. -/

/-- Claim C7, counterexample: the key `text` is present in the map (with
value `""`), yet the probe moves on and consults (and uses) `content`, so
"the first present key's value is used" fails as stated. -/
theorem c7_counterexample :
    jLookup (JVal.obj [("text", JVal.str ""), ("content", JVal.str "Z")]) "text" = some (JVal.str "") ∧
    extract_text_from_item (JVal.obj [("text", JVal.str ""), ("content", JVal.str "Z")]) = some "Z" :=
  ⟨rfl, rfl⟩

/-- Claim C7 (amended): in the fallback probe the keys `text`, `content`,
`message` are tried in that order, and the first key whose value is a
non-empty string — or a list whose content-list extraction yields non-empty
text — wins; a key that is absent, or whose value is an empty string, a list
without extractable text, or any other value, is skipped and the later keys
are still consulted.  The fallback is what `_extract_text_from_item` runs
when neither the `text` nor the `message` shape applies. -/
theorem c7_probe_first_usable_key :
    (∀ (item : JVal) (k : String) (ks : List String) (s : String),
       jLookup item k = some (JVal.str s) → s ≠ "" → probeKeys item (k :: ks) = some s)
    ∧ (∀ (item : JVal) (k : String) (ks : List String) (l : List JVal) (t : String),
       jLookup item k = some (JVal.arr l) → extract_text_from_content (JVal.arr l) = some t →
       t ≠ "" → probeKeys item (k :: ks) = some t)
    ∧ (∀ (item : JVal) (k : String) (ks : List String),
       jLookup item k = none → probeKeys item (k :: ks) = probeKeys item ks)
    ∧ (∀ (item : JVal) (k : String) (ks : List String),
       jLookup item k = some (JVal.str "") → probeKeys item (k :: ks) = probeKeys item ks)
    ∧ (∀ (item : JVal) (k : String) (ks : List String) (l : List JVal),
       jLookup item k = some (JVal.arr l) →
       (extract_text_from_content (JVal.arr l) = none ∨ extract_text_from_content (JVal.arr l) = some "") →
       probeKeys item (k :: ks) = probeKeys item ks)
    ∧ (∀ (item : JVal) (k : String) (ks : List String) (v : JVal),
       jLookup item k = some v → (∀ s, v ≠ JVal.str s) → (∀ l, v ≠ JVal.arr l) →
       probeKeys item (k :: ks) = probeKeys item ks)
    ∧ (∀ (kvs : List (String × JVal)),
       ((jLookup (JVal.obj kvs) "type").getD (JVal.str "") ≠ JVal.str "text" ∨
          jLookup (JVal.obj kvs) "content" = none) →
       ((jLookup (JVal.obj kvs) "type").getD (JVal.str "") ≠ JVal.str "message" ∨
          jLookup (JVal.obj kvs) "content" = none) →
       extract_text_from_item (JVal.obj kvs) = probeKeys (JVal.obj kvs) ["text", "content", "message"]) := by
  refine ⟨?_, ?_, ?_, ?_, ?_, ?_, ?_⟩
  · intro item k ks s hl hs
    simp [probeKeys, hl, hs]
  · intro item k ks l t hl he ht
    simp [probeKeys, hl, he, ht]
  · intro item k ks hl
    simp [probeKeys, hl]
  · intro item k ks hl
    simp [probeKeys, hl]
  · intro item k ks l hl he
    rcases he with he | he <;> simp [probeKeys, hl, he]
  · intro item k ks v hl hns hna
    match v with
    | .str s => exact absurd rfl (hns s)
    | .arr l => exact absurd rfl (hna l)
    | .num n => simp [probeKeys, hl]
    | .bool b => simp [probeKeys, hl]
    | .null => simp [probeKeys, hl]
    | .obj kvs => simp [probeKeys, hl]
  · intro kvs h1 h2
    cases hc : jLookup (JVal.obj kvs) "content" with
    | none => simp [extract_text_from_item, hc]
    | some c =>
      have ht : jIsStr ((jLookup (JVal.obj kvs) "type").getD (JVal.str "")) "text" = false := by
        rw [Bool.eq_false_iff]
        intro hh
        rcases h1 with h1 | h1
        · exact h1 ((jIsStr_iff _ _).mp hh)
        · rw [h1] at hc; cases hc
      have hm : jIsStr ((jLookup (JVal.obj kvs) "type").getD (JVal.str "")) "message" = false := by
        rw [Bool.eq_false_iff]
        intro hh
        rcases h2 with h2 | h2
        · exact h2 ((jIsStr_iff _ _).mp hh)
        · rw [h2] at hc; cases hc
      simp [extract_text_from_item, hc, ht, hm]

/-- Claim C7, witness. -/
theorem c7_witness :
    probeKeys (JVal.obj [("message", JVal.str "hi")]) ["text", "content", "message"] = some "hi" := by
  have h3 := c7_probe_first_usable_key.2.2.1 (JVal.obj [("message", JVal.str "hi")])
    "text" ["content", "message"] (by rfl)
  have h4 := c7_probe_first_usable_key.2.2.1 (JVal.obj [("message", JVal.str "hi")])
    "content" ["message"] (by rfl)
  have h5 := c7_probe_first_usable_key.1 (JVal.obj [("message", JVal.str "hi")])
    "message" [] "hi" (by rfl) (by decide)
  rw [h3, h4, h5]

/-! Claim C6. -/

theorem pjr_output_branch_none (r : JVal)
    (H1 : ∀ (out : List JVal) (t : String), jLookup r "output" = some (JVal.arr out) →
      extract_text_from_output (JVal.arr out) = some t → t = "") :
    pjr_output_branch r = none := by
  unfold pjr_output_branch
  cases ho : jLookup r "output" with
  | none => rfl
  | some v =>
    match v with
    | .str _ => rfl
    | .num _ => rfl
    | .bool _ => rfl
    | .null => rfl
    | .obj _ => rfl
    | .arr out =>
      cases hx : extract_text_from_output (JVal.arr out) with
      | none => simp [hx]
      | some t =>
        have := H1 out t ho hx
        simp [hx, this]

theorem pjr_choices_branch_none (r : JVal)
    (H2 : ∀ (c0 : JVal) (rest : List JVal), jLookup r "choices" = some (JVal.arr (c0 :: rest)) →
      jTruthy (choiceContent c0) = false) :
    pjr_choices_branch r = none := by
  unfold pjr_choices_branch
  cases hc : jLookup r "choices" with
  | none => rfl
  | some v =>
    match v with
    | .str _ => rfl
    | .num _ => rfl
    | .bool _ => rfl
    | .null => rfl
    | .obj _ => rfl
    | .arr l =>
      match l with
      | [] => rfl
      | c0 :: rest =>
        have := H2 c0 rest hc
        simp [this]

/-- Claim C6, counterexample: `output` is present and a list, so per the
claim the result should be `extractOutputText` of it (here `None`), but the
source falls through on a falsy extraction and serves the `content` field. -/
theorem c6_counterexample :
    parse_json_response (JVal.obj [("output", JVal.arr []), ("content", JVal.str "Z")]) =
      some (JVal.str "Z") ∧
    extract_text_from_output (JVal.arr []) = none :=
  ⟨rfl, rfl⟩

/-- Claim C6 (amended): non-streaming decode tries the three shapes in
priority order, where the `output` and `choices` shapes win only when they
yield a truthy value: an `output` list whose extracted text is non-empty
yields that text; otherwise a non-empty `choices` list whose
`choices[0].message.content` is truthy yields that content; otherwise a
present `content` field yields its value verbatim; otherwise None.  The four
examples of the claim hold as stated. -/
theorem c6_priority_order :
    parse_json_response (JVal.obj [("output", JVal.arr [JVal.obj [("type", JVal.str "message"),
        ("content", JVal.arr [JVal.obj [("type", JVal.str "output_text"),
        ("text", JVal.str "X")]])]])]) = some (JVal.str "X")
    ∧ parse_json_response (JVal.obj [("choices", JVal.arr [JVal.obj [("message",
        JVal.obj [("content", JVal.str "Y")])]])]) = some (JVal.str "Y")
    ∧ parse_json_response (JVal.obj [("content", JVal.str "Z")]) = some (JVal.str "Z")
    ∧ parse_json_response (JVal.obj []) = none
    ∧ (∀ (r : JVal) (out : List JVal) (t : String),
        jLookup r "output" = some (JVal.arr out) → extract_text_from_output (JVal.arr out) = some t →
        t ≠ "" → parse_json_response r = some (JVal.str t))
    ∧ (∀ (r : JVal) (c0 : JVal) (rest : List JVal),
        (∀ (out : List JVal) (t : String), jLookup r "output" = some (JVal.arr out) →
          extract_text_from_output (JVal.arr out) = some t → t = "") →
        jLookup r "choices" = some (JVal.arr (c0 :: rest)) →
        jTruthy (choiceContent c0) = true →
        parse_json_response r = some (choiceContent c0))
    ∧ (∀ (r : JVal),
        (∀ (out : List JVal) (t : String), jLookup r "output" = some (JVal.arr out) →
          extract_text_from_output (JVal.arr out) = some t → t = "") →
        (∀ (c0 : JVal) (rest : List JVal), jLookup r "choices" = some (JVal.arr (c0 :: rest)) →
          jTruthy (choiceContent c0) = false) →
        parse_json_response r = jLookup r "content") := by
  refine ⟨rfl, rfl, rfl, rfl, ?_, ?_, ?_⟩
  · intro r out t h1 h2 h3
    have hb : pjr_output_branch r = some (JVal.str t) := by
      simp [pjr_output_branch, h1, h2, h3]
    simp [parse_json_response, hb]
  · intro r c0 rest hH1 hch htr
    have hb1 := pjr_output_branch_none r hH1
    have hb2 : pjr_choices_branch r = some (choiceContent c0) := by
      simp [pjr_choices_branch, hch, htr]
    simp [parse_json_response, hb1, hb2]
  · intro r hH1 hH2
    have hb1 := pjr_output_branch_none r hH1
    have hb2 := pjr_choices_branch_none r hH2
    simp [parse_json_response, hb1, hb2]

/-- Claim C6, witness. -/
theorem c6_witness :
    parse_json_response (JVal.obj [("output", JVal.arr [JVal.str "W"])]) = some (JVal.str "W") :=
  c6_priority_order.2.2.2.2.1 (JVal.obj [("output", JVal.arr [JVal.str "W"])])
    [JVal.str "W"] "W" rfl rfl (by decide)

/-! Claim C8. -/

/-- Claim C8: for every message that is empty or consists only of whitespace,
`send_message` returns the fixed validation string immediately and the
transport (network call) is never invoked. -/
theorem c8_empty_message_no_network
    (transport : String → List (String × String) → JVal → Option String) (c : ClientCfg)
    (message session_key : String) (h : ∀ ch ∈ message.data, ch.isWhitespace) :
    send_message transport c message session_key = (some "❌ 消息不能为空", false) := by
  have hstrip : pyStrip message = "" := by
    unfold pyStrip stripChars
    rw [List.dropWhile_eq_nil_iff.mpr h]
    rfl
  unfold send_message
  rw [if_pos (Or.inr hstrip)]

/-- Claim C8, witness. -/
theorem c8_witness :
    send_message (fun _ _ _ => none)
      { gateway_url := "http://gw", agent_id := "main", auth_token := "", timeout := 300 }
      "   " "sess" = (some "❌ 消息不能为空", false) :=
  c8_empty_message_no_network (fun _ _ _ => none)
    { gateway_url := "http://gw", agent_id := "main", auth_token := "", timeout := 300 }
    "   " "sess" (by decide)

/-! Claim C9. -/

theorem dictGet_map_replace_ne (l : List (String × Session)) (a b : String) (v : Session)
    (hab : a ≠ b) :
    dictGet (l.map (fun p => if p.1 == a then (a, v) else p)) b = dictGet l b := by
  induction l with
  | nil => rfl
  | cons p rest ih =>
    simp only [List.map_cons]
    unfold dictGet
    by_cases hp : (p.1 == a) = true
    · have hpa : p.1 = a := by simpa using hp
      rw [if_pos hp]
      rw [List.find?_cons, List.find?_cons]
      have h1 : ((a, v).1 == b) = false := by simpa using hab
      have h2 : (p.1 == b) = false := by simpa [hpa] using hab
      rw [h1, h2]
      exact ih
    · rw [if_neg hp]
      rw [List.find?_cons, List.find?_cons]
      cases hpb : (p.1 == b) with
      | true => rfl
      | false => exact ih

theorem dictGet_append_single_ne (l : List (String × Session)) (a b : String) (v : Session)
    (hab : a ≠ b) :
    dictGet (l ++ [(a, v)]) b = dictGet l b := by
  induction l with
  | nil =>
    unfold dictGet
    rw [List.nil_append, List.find?_cons]
    have h1 : ((a, v).1 == b) = false := by simpa using hab
    rw [h1]
  | cons p rest ih =>
    unfold dictGet
    rw [List.cons_append, List.find?_cons, List.find?_cons]
    cases hpb : (p.1 == b) with
    | true => rfl
    | false => exact ih

theorem dictGet_dictSet_ne (l : List (String × Session)) (a b : String) (v : Session)
    (hab : a ≠ b) : dictGet (dictSet l a v) b = dictGet l b := by
  unfold dictSet
  by_cases hany : l.any (fun p => p.1 == a)
  · rw [if_pos hany]
    exact dictGet_map_replace_ne l a b v hab
  · rw [if_neg hany]
    exact dictGet_append_single_ne l a b v hab

/-- Claim C9: for distinct session ids `a ≠ b` and any store state, entering
clawdbot mode for `a` leaves every observation of `b` unchanged:
`is_in_clawdbot_mode`, `get_session_key` and `get_session_name`. -/
theorem c9_enter_frame (m : SessionManager) (a b key name : String) (hab : a ≠ b) :
    is_in_clawdbot_mode (enter_clawdbot_mode m a key name) b = is_in_clawdbot_mode m b ∧
    get_session_key (enter_clawdbot_mode m a key name) b = get_session_key m b ∧
    get_session_name (enter_clawdbot_mode m a key name) b = get_session_name m b := by
  have h := dictGet_dictSet_ne m._sessions a b
    { mode := MODE_CLAWDBOT, session_key := key, session_name := name } hab
  refine ⟨?_, ?_, ?_⟩
  · unfold is_in_clawdbot_mode enter_clawdbot_mode
    rw [h]
  · unfold get_session_key enter_clawdbot_mode
    rw [h]
  · unfold get_session_name enter_clawdbot_mode
    rw [h]

/-- Claim C9, witness. -/
theorem c9_witness :
    is_in_clawdbot_mode
      (enter_clawdbot_mode { _sessions := [("qq_u1_g1", { mode := "clawdbot", session_key := "k1", session_name := "default" })] } "qq_u2_g1" "k2" "default")
      "qq_u1_g1" = is_in_clawdbot_mode { _sessions := [("qq_u1_g1", { mode := "clawdbot", session_key := "k1", session_name := "default" })] } "qq_u1_g1" :=
  (c9_enter_frame { _sessions := [("qq_u1_g1", { mode := "clawdbot", session_key := "k1", session_name := "default" })] }
    "qq_u2_g1" "qq_u1_g1" "k2" "default" (by decide)).1

/-! Event-level lemmas shared by claims C3, C4 and C5. -/

theorem str_of_length_zero (s : String) (h : s.length = 0) : s = "" := by
  cases s with
  | mk data =>
    have hd : data = [] := List.length_eq_zero.mp h
    simp [hd]

theorem parse_deltaEv (s : String) :
    parse_sse_event (deltaEv s) =
      { type := JVal.str "response.output_text.delta", text := some s, is_done := false,
        is_error := false, error_message := none, status := none } := rfl

theorem parse_doneEv (s : String) :
    parse_sse_event (doneEv s) =
      { type := JVal.str "response.output_text.done", text := some s, is_done := true,
        is_error := false, error_message := none, status := none } := rfl

/-- An event whose decoded `text` is falsy (absent or empty) leaves the
accumulators unchanged: the `if result["text"]:` guard of client.py 212. -/
theorem applyEvent_falsy_text (st : AggState) (r : SSEEventResult)
    (h : r.text = none ∨ r.text = some "") : applyEvent st r = st := by
  unfold applyEvent
  rcases h with h | h <;> rw [h]
  simp

/-- Per-event monotonicity of the accumulated text length. -/
theorem applyEvent_acc_mono (st : AggState) (r : SSEEventResult) :
    st.accumulated_text.length ≤ (applyEvent st r).accumulated_text.length := by
  obtain ⟨ty, tx, d, er, em, stt⟩ := r
  cases tx with
  | none => simp [applyEvent]
  | some t =>
    simp only [applyEvent]
    by_cases ht : t ≠ ""
    · rw [if_pos ht]
      by_cases h1 : jIsStr ty "response.output_text.delta" = true
      · rw [if_pos h1]
        simp [String.length_append]
      · rw [if_neg h1]
        by_cases h2 : jIsStr ty "response.completed" = true
        · rw [if_pos h2]
        · rw [if_neg h2]
          by_cases h3 : jIsStr ty "response.output_text.done" = true
          · rw [if_pos h3]
            by_cases h4 : t.length ≥ st.accumulated_text.length
            · rw [if_pos h4]
              exact h4
            · rw [if_neg h4]
          · rw [if_neg h3]
    · rw [if_neg ht]

theorem runEvents_acc_mono (es : List JVal) (st st' : AggState)
    (h : runEvents st es = EvOut.flowing st') :
    st.accumulated_text.length ≤ st'.accumulated_text.length := by
  induction es generalizing st with
  | nil =>
    unfold runEvents at h
    cases h
    exact Nat.le_refl _
  | cons e rest ih =>
    unfold runEvents at h
    by_cases herr : (parse_sse_event e).is_error = true
    · rw [if_pos herr] at h
      cases h
    · rw [if_neg herr] at h
      have h1 := ih _ h
      have h2 := applyEvent_acc_mono
        { st with event_count := st.event_count + 1 } (parse_sse_event e)
      exact Nat.le_trans h2 h1

/-! Claim C4. -/

/-- Claim C4: a `response.output_text.done` event replaces the accumulated
text with its text exactly when the new text is at least as long (a shorter
done text never shrinks the accumulator), and the accumulated length is
monotonically non-decreasing across any decoded event sequence.  The two
spec examples evaluate as stated. -/
theorem c4_done_monotonic :
    (∀ (st : AggState) (t : String),
       applyEvent st (parse_sse_event (doneEv t)) =
         if t.length ≥ st.accumulated_text.length then { st with accumulated_text := t } else st)
    ∧ (∀ (es : List JVal) (st st2 : AggState), runEvents st es = EvOut.flowing st2 →
       st.accumulated_text.length ≤ st2.accumulated_text.length)
    ∧ aggregateEvents [deltaEv "Hi", doneEv "Hi there"] = "Hi there"
    ∧ aggregateEvents [deltaEv "Hi there", doneEv "Hi"] = "Hi there" := by
  refine ⟨?_, fun es st st2 h => runEvents_acc_mono es st st2 h, rfl, rfl⟩
  intro st t
  rw [parse_doneEv]
  by_cases ht : t = ""
  · subst ht
    rw [applyEvent_falsy_text st _ (Or.inr rfl)]
    by_cases hz : ("" : String).length ≥ st.accumulated_text.length
    · rw [if_pos hz]
      have hacc : st.accumulated_text = "" := str_of_length_zero _ (Nat.le_zero.mp hz)
      cases st with
      | mk a f c => simp_all
    · rw [if_neg hz]
  · have key : applyEvent st
        { type := JVal.str "response.output_text.done", text := some t, is_done := true,
          is_error := false, error_message := none, status := none } =
        if t ≠ "" then
          (if t.length ≥ st.accumulated_text.length then { st with accumulated_text := t } else st)
        else st := rfl
    rw [key, if_pos ht]

/-- Claim C4, witness. -/
theorem c4_witness :
    applyEvent initAgg (parse_sse_event (doneEv "Hi there")) =
      { initAgg with accumulated_text := "Hi there" } ∧
    initAgg.accumulated_text.length ≤ initAgg.accumulated_text.length := by
  constructor
  · rw [c4_done_monotonic.1 initAgg "Hi there"]
    rfl
  · exact c4_done_monotonic.2.1 [] initAgg initAgg rfl

/-! Claim C3. -/

/-- Claim C3, counterexample: with the stream `Completed("A"), Completed("")`
the text of the *last* completed event is absent, and nothing was
accumulated, so the claim as stated predicts the fixed no-text message; the
source keeps the earlier final text and returns "A" (an empty completed text
never overwrites `final_response_text`, client.py 212-216). -/
theorem c3_counterexample :
    aggregateEvents [completedEv "A", completedEv ""] = "A" ∧
    (parse_sse_event (completedEv "")).text = none :=
  ⟨rfl, rfl⟩

/-- Claim C3 (amended): `finalText` is the text of the last completed event
that carried non-empty text — a completed event with absent or empty text
leaves the accumulators unchanged — and at stream end the returned text is
`finalText` when non-empty, otherwise the accumulated text, otherwise the
fixed no-text message; a non-empty completed text always wins over the
accumulated deltas. -/
theorem c3_final_text_precedence :
    (∀ (st : AggState) (r : SSEEventResult),
       r.text = none ∨ r.text = some "" → applyEvent st r = st)
    ∧ (∀ (st : AggState) (r : SSEEventResult) (t : String),
       r.type = JVal.str "response.completed" → r.text = some t → t ≠ "" →
       applyEvent st r = { st with final_response_text := t })
    ∧ (∀ st : AggState, st.final_response_text ≠ "" → sseFinish st = st.final_response_text)
    ∧ (∀ st : AggState, st.final_response_text = "" →
       sseFinish st = if st.accumulated_text ≠ "" then st.accumulated_text
                      else "✅ 命令已执行完成（无文本输出）")
    ∧ aggregateEvents [deltaEv "Hello", deltaEv " world", completedEv "Hello world"] = "Hello world"
    ∧ aggregateEvents [deltaEv "Hello", deltaEv " world", completedEv ""] = "Hello world" := by
  refine ⟨applyEvent_falsy_text, ?_, ?_, ?_, rfl, rfl⟩
  · intro st r t hty htx ht
    obtain ⟨ty, tx, d, er, em, stt⟩ := r
    simp only at hty htx
    subst hty
    subst htx
    have key : applyEvent st
        { type := JVal.str "response.completed", text := some t, is_done := d,
          is_error := er, error_message := em, status := stt } =
        if t ≠ "" then { st with final_response_text := t } else st := rfl
    rw [key, if_pos ht]
  · intro st h
    simp [sseFinish, h]
  · intro st h
    simp [sseFinish, h]

/-- Claim C3, witness. -/
theorem c3_witness :
    applyEvent initAgg (parse_sse_event (completedEv "")) = initAgg :=
  c3_final_text_precedence.1 initAgg (parse_sse_event (completedEv "")) (Or.inl rfl)

/-! Claim C5. -/

/-- Claim C5: a `response.failed` event aborts aggregation at that event and
the call returns the fixed error string embedding the event's message
(defaulting to "Unknown error" when absent), regardless of the state — and
hence of any text — accumulated before it. -/
theorem c5_failed_aborts :
    (∀ (pre post : List JVal) (e : JVal) (st : AggState),
       (parse_sse_event e).is_error = true →
       (∀ e2 ∈ pre, (parse_sse_event e2).is_error = false) →
       runEvents st (pre ++ e :: post) =
         EvOut.returned ("❌ OpenClaw 错误: " ++ ((parse_sse_event e).error_message.getD "None")))
    ∧ (∀ m : String, (parse_sse_event (failedEv m)).is_error = true ∧
       (parse_sse_event (failedEv m)).error_message = some m)
    ∧ (parse_sse_event failedEvNoMsg).error_message = some "Unknown error"
    ∧ aggregateEvents [deltaEv "partial", failedEv "boom"] = "❌ OpenClaw 错误: boom" := by
  refine ⟨?_, fun m => ⟨rfl, rfl⟩, rfl, rfl⟩
  intro pre post e st herr hpre
  induction pre generalizing st with
  | nil =>
    rw [List.nil_append]
    simp only [runEvents]
    rw [if_pos herr]
  | cons e2 rest ih =>
    rw [List.cons_append]
    simp only [runEvents]
    have h2 : (parse_sse_event e2).is_error = false := hpre e2 (by simp)
    rw [h2]
    simp only [Bool.false_eq_true, if_false]
    exact ih _ (fun x hx => hpre x (List.mem_cons_of_mem e2 hx))

/-- Claim C5, witness. -/
theorem c5_witness :
    runEvents initAgg [deltaEv "x", failedEv "boom"] =
      EvOut.returned "❌ OpenClaw 错误: boom" :=
  c5_failed_aborts.1 [deltaEv "x"] [] (failedEv "boom") initAgg (by decide)
    (by intro e2 h; simp at h; subst h; rfl)

/-! Framing lemmas for claim C2. -/

theorem splitCL_no_newline (a : List Char) (h : '\n' ∉ a) : splitCL a = ([], a) := by
  induction a with
  | nil => rfl
  | cons c cs ih =>
    have hc : c ≠ '\n' := fun hcc => h (hcc ▸ List.mem_cons_self c cs)
    have hcs : '\n' ∉ cs := fun hm => h (List.mem_cons_of_mem c hm)
    simp [splitCL, ih hcs, hc]

theorem splitCL_cons_newline (a b : List Char) (h : '\n' ∉ a) :
    splitCL (a ++ '\n' :: b) = (a :: (splitCL b).1, (splitCL b).2) := by
  induction a with
  | nil =>
    rcases hsb : splitCL b with ⟨ss, rem⟩
    simp [splitCL, hsb]
  | cons c cs ih =>
    have hc : c ≠ '\n' := fun hcc => h (hcc ▸ List.mem_cons_self c cs)
    have hcs : '\n' ∉ cs := fun hm => h (List.mem_cons_of_mem c hm)
    simp [splitCL, ih hcs, hc]

theorem splitCL_parts_no_newline (x : List Char) :
    (∀ s ∈ (splitCL x).1, '\n' ∉ s) ∧ '\n' ∉ (splitCL x).2 := by
  induction x with
  | nil => exact ⟨by simp [splitCL], by simp [splitCL]⟩
  | cons c cs ih =>
    rcases hsc : splitCL cs with ⟨ss, rem⟩
    rw [hsc] at ih
    by_cases hc : c = '\n'
    · subst hc
      constructor
      · intro s hs
        simp [splitCL, hsc] at hs
        rcases hs with hs | hs
        · simp [hs]
        · exact ih.1 s hs
      · simpa [splitCL, hsc] using ih.2
    · cases ss with
      | nil =>
        refine ⟨by simp [splitCL, hsc, hc], ?_⟩
        simp [splitCL, hsc, hc]
        exact ⟨fun hcc => hc hcc.symm, ih.2⟩
      | cons s ss2 =>
        constructor
        · intro u hu
          simp [splitCL, hsc, hc] at hu
          rcases hu with hu | hu
          · subst hu
            intro hm
            rcases List.mem_cons.mp hm with hm | hm
            · exact hc hm.symm
            · exact ih.1 s (by simp) hm
          · exact ih.1 u (by simp [hu])
        · simp [splitCL, hsc, hc]
          exact ih.2

theorem joinNL_splitCL (x : List Char) : joinNL (splitCL x).1 (splitCL x).2 = x := by
  induction x with
  | nil => rfl
  | cons c cs ih =>
    rcases hsc : splitCL cs with ⟨ss, rem⟩
    rw [hsc] at ih
    by_cases hc : c = '\n'
    · subst hc
      simp [splitCL, hsc, joinNL]
      exact ih
    · cases ss with
      | nil =>
        simp [splitCL, hsc, hc, joinNL]
        simpa [joinNL] using ih
      | cons s ss2 =>
        simp [splitCL, hsc, hc, joinNL]
        simpa [joinNL] using ih

theorem splitCL_joinNL_append (S : List (List Char)) (r z : List Char)
    (h : ∀ s ∈ S, '\n' ∉ s) :
    splitCL (joinNL S r ++ z) = (S ++ (splitCL (r ++ z)).1, (splitCL (r ++ z)).2) := by
  induction S with
  | nil => simp [joinNL]
  | cons s S2 ih =>
    have hs : '\n' ∉ s := h s (by simp)
    have hS2 : ∀ u ∈ S2, '\n' ∉ u := fun u hu => h u (by simp [hu])
    have hassoc : joinNL (s :: S2) r ++ z = s ++ '\n' :: (joinNL S2 r ++ z) := by
      simp [joinNL]
    rw [hassoc, splitCL_cons_newline _ _ hs, ih hS2]
    simp

theorem foldSegs_append (parse : String → Option JVal) (xs ys : List (List Char)) :
    ∀ st : AggState, foldSegs parse st (xs ++ ys) =
      (match foldSegs parse st xs with
       | .flowing st2 => foldSegs parse st2 ys
       | .returned m => EvOut.returned m) := by
  induction xs with
  | nil => intro st; rfl
  | cons l ls ih =>
    intro st
    rw [List.cons_append]
    simp only [foldSegs]
    cases foldStep parse st l with
    | flowing st2 => exact ih st2
    | returned m => rfl

/-- On a sentinel-free line list, `processSegs` is `foldSegs` with the final
remainder attached. -/
theorem processSegs_eq_foldSegs (parse : String → Option JVal) (segs : List (List Char))
    (hsf : ∀ s ∈ segs, stripChars s ≠ doneSentinel) :
    ∀ (st : AggState) (rem : List Char),
      processSegs parse st segs rem =
        (match foldSegs parse st segs with
         | .flowing st2 => StreamStep.flowing st2 rem
         | .returned m => StreamStep.returned m) := by
  induction segs with
  | nil => intro st rem; rfl
  | cons l ls ih =>
    intro st rem
    have hl : stripChars l ≠ doneSentinel := hsf l (by simp)
    have hls : ∀ s ∈ ls, stripChars s ≠ doneSentinel := fun s hs => hsf s (by simp [hs])
    simp only [processSegs, foldSegs, foldStep]
    by_cases h1 : ((stripChars l).isEmpty || ("event:".data).isPrefixOf (stripChars l)) = true
    · rw [if_pos h1, if_pos h1]
      exact ih hls st rem
    · rw [if_neg h1, if_neg h1, if_neg hl, if_neg hl]
      by_cases h2 : ("data: ".data).isPrefixOf (stripChars l) = true
      · rw [if_pos h2, if_pos h2]
        cases hp : parse (String.mk ((stripChars l).drop 6)) with
        | none => exact ih hls st rem
        | some data =>
          dsimp only
          by_cases h3 : (parse_sse_event data).is_error = true
          · rw [if_pos h3, if_pos h3]
          · rw [if_neg h3, if_neg h3]
            exact ih hls _ rem
      · rw [if_neg h2, if_neg h2]
        exact ih hls st rem

theorem foldl_processChunk_returned (parse : String → Option JVal) (chunks : List (List Char))
    (m : String) :
    List.foldl (processChunk parse) (StreamStep.returned m) chunks = StreamStep.returned m := by
  induction chunks with
  | nil => rfl
  | cons ch rest ih =>
    rw [List.foldl_cons]
    exact ih

/-- Folding the chunk loop from a newline-free buffer equals one pass of
`foldSegs` over the complete lines of the whole remaining byte stream,
provided no complete line is the `data: [DONE]` sentinel. -/
theorem foldChunks_eq (parse : String → Option JVal) (chunks : List (List Char)) :
    ∀ (st : AggState) (buf : List Char),
      '\n' ∉ buf →
      (∀ s ∈ (splitCL (buf ++ chunks.flatten)).1, stripChars s ≠ doneSentinel) →
      List.foldl (processChunk parse) (StreamStep.flowing st buf) chunks =
        (match foldSegs parse st (splitCL (buf ++ chunks.flatten)).1 with
         | .flowing st2 => StreamStep.flowing st2 ((splitCL (buf ++ chunks.flatten)).2)
         | .returned m => StreamStep.returned m) := by
  induction chunks with
  | nil =>
    intro st buf hnl hsf
    simp only [List.flatten_nil, List.append_nil]
    rw [splitCL_no_newline buf hnl]
    rfl
  | cons ch rest ih =>
    intro st buf hnl hsf
    rw [List.foldl_cons]
    by_cases hch : ch.isEmpty = true
    · have hce : ch = [] := List.isEmpty_iff.mp hch
      subst hce
      have hstep : processChunk parse (StreamStep.flowing st buf) [] = StreamStep.flowing st buf := by
        simp [processChunk]
      rw [hstep]
      have hflat : buf ++ ([] :: rest).flatten = buf ++ rest.flatten := by simp
      rw [hflat] at hsf ⊢
      exact ih st buf hnl hsf
    · have hstep : processChunk parse (StreamStep.flowing st buf) ch =
          processSegs parse st (splitCL (buf ++ ch)).1 ((splitCL (buf ++ ch)).2) := by
        simp [processChunk, hch]
      rw [hstep]
      have hsegs1 := (splitCL_parts_no_newline (buf ++ ch)).1
      have hremnl := (splitCL_parts_no_newline (buf ++ ch)).2
      have hJ : splitCL (buf ++ (ch :: rest).flatten) =
          ((splitCL (buf ++ ch)).1 ++ (splitCL ((splitCL (buf ++ ch)).2 ++ rest.flatten)).1,
           (splitCL ((splitCL (buf ++ ch)).2 ++ rest.flatten)).2) := by
        have h0 : buf ++ (ch :: rest).flatten =
            joinNL (splitCL (buf ++ ch)).1 ((splitCL (buf ++ ch)).2) ++ rest.flatten := by
          rw [joinNL_splitCL]
          simp [List.flatten_cons, List.append_assoc]
        rw [h0]
        exact splitCL_joinNL_append _ _ _ hsegs1
      rw [hJ] at hsf ⊢
      dsimp only at hsf ⊢
      have hs1 : ∀ s ∈ (splitCL (buf ++ ch)).1, stripChars s ≠ doneSentinel :=
        fun s hs => hsf s (List.mem_append_left _ hs)
      have hs2 : ∀ s ∈ (splitCL ((splitCL (buf ++ ch)).2 ++ rest.flatten)).1,
          stripChars s ≠ doneSentinel :=
        fun s hs => hsf s (List.mem_append_right _ hs)
      rw [processSegs_eq_foldSegs parse _ hs1]
      rw [foldSegs_append]
      cases hf1 : foldSegs parse st (splitCL (buf ++ ch)).1 with
      | returned m =>
        dsimp only
        exact foldl_processChunk_returned parse rest m
      | flowing st2 =>
        dsimp only
        exact ih st2 ((splitCL (buf ++ ch)).2) hremnl hs2

/-! Claim C2. -/

/-- Claim C2, counterexample: the chunk sequences
`["data: [DONE]\n", "data: <delta X>\n"]` and their concatenation as one
chunk have the same bytes but different results: chunked, the post-sentinel
delta line is processed when the second chunk arrives and the call returns
"X"; in one chunk the sentinel's `break` leaves it buffered forever and the
call returns the fixed no-text message. -/
theorem c2_counterexample :
    List.flatten [chunkDone, chunkDeltaX] = List.flatten [chunkDone ++ chunkDeltaX] ∧
    handle_sse_response parse1 [chunkDone, chunkDeltaX] = "X" ∧
    handle_sse_response parse1 [chunkDone ++ chunkDeltaX] = "✅ 命令已执行完成（无文本输出）" := by
  refine ⟨by simp, rfl, rfl⟩

/-- Claim C2 (amended): the result of stream aggregation depends only on the
concatenation of the incoming chunks provided no complete line of the
concatenated stream is the `data: [DONE]` sentinel (with a sentinel present,
chunk boundaries become observable, see the counterexample); in particular a
line split across two chunks mid-JSON is reassembled and decoded as one
line. -/
theorem c2_chunk_boundary_invariance :
    (∀ (parse : String → Option JVal) (cs1 cs2 : List (List Char)),
       cs1.flatten = cs2.flatten →
       (∀ s ∈ (splitCL cs1.flatten).1, stripChars s ≠ doneSentinel) →
       handle_sse_response parse cs1 = handle_sse_response parse cs2)
    ∧ handle_sse_response parse1 [splitA, splitB] = "X"
    ∧ handle_sse_response parse1 [splitA ++ splitB] = "X" := by
  refine ⟨?_, rfl, rfl⟩
  intro parse cs1 cs2 hcat hsf
  unfold handle_sse_response
  have h1 := foldChunks_eq parse cs1 initAgg [] (by simp)
    (by simpa using hsf)
  have h2 := foldChunks_eq parse cs2 initAgg [] (by simp)
    (by simp only [List.nil_append]; rw [← hcat]; exact hsf)
  simp only [List.nil_append] at h1 h2
  rw [h1, h2, hcat]

/-- Claim C2, witness. -/
theorem c2_witness :
    handle_sse_response parse1 [splitA, splitB] =
      handle_sse_response parse1 [splitA ++ splitB] :=
  c2_chunk_boundary_invariance.1 parse1 [splitA, splitB] [splitA ++ splitB]
    (by simp) (by decide)
